import Mathlib

/-!
# Verification of the employee-records manager core

Shallow embedding, in Lean 4, of the core of the `ing-hub-challange`
employee-records application:

* `src/store/employees.store.js` — the employee store (`upsert` with its
  email-uniqueness check);
* `src/utils/validation.js` — the pure validation engine
  (`validateEmployee` and its helpers `req`, `isName`, `isValidEmail`,
  `isValidPhone`, `parseISO`, `yearsBetween`);
* `src/components/employee-list.js` — the list/filter/pagination engine
  (`_filtered`, `_slice`, the `updated` clamp, the page-reset handlers);
* `src/components/shared/pagination.js` — `_pages` (total pages and the
  page clamp).

JavaScript strings are modelled as Lean `String`s (lists of characters).
`String.prototype.toLowerCase` and the regex classes `\p{L}`/`\p{M}` are
modelled on the ASCII fragment (`Char.toLower` lowercases exactly
`'A'..'Z'`; no ASCII character is a Unicode mark), and JavaScript
whitespace is modelled by `Char.isWhitespace`; every concrete input used
below is ASCII, where the model agrees with the JavaScript semantics
character for character.
-/

namespace HR

/-- `String.prototype.toLowerCase`, on the ASCII fragment:
`Char.toLower` lowercases exactly the characters `'A'..'Z'`. -/
def lowerStr (s : String) : String := ⟨s.data.map Char.toLower⟩

/-- `String.prototype.trim`: drop leading and trailing whitespace. -/
def trimStr (s : String) : String :=
  ⟨(((s.data.dropWhile Char.isWhitespace).reverse).dropWhile
      Char.isWhitespace).reverse⟩

/-- `hay` starts with `needle` (`Array.prototype.startsWith` on char lists). -/
def startsWith : List Char → List Char → Bool
  | _, [] => true
  | [], _ :: _ => false
  | a :: as, b :: bs => a == b && startsWith as bs

/-- `hay` contains `needle` as a contiguous run
(`String.prototype.includes` on char lists). -/
def containsSeq : List Char → List Char → Bool
  | [], n => startsWith [] n
  | h :: t, n => startsWith (h :: t) n || containsSeq t n

/-- `String.prototype.includes`. -/
def strIncludes (hay sub : String) : Bool := containsSeq hay.data sub.data

/-- JavaScript `<` on strings: lexicographic comparison by code unit
(code point, for the ASCII/BMP fragment). -/
def strLtB : List Char → List Char → Bool
  | [], [] => false
  | [], _ :: _ => true
  | _ :: _, [] => false
  | a :: as, b :: bs => if a = b then strLtB as bs else decide (a < b)

/-- JavaScript `a >= b` on strings (total order, so `¬ (a < b)`). -/
def strGe (a b : String) : Bool := !(strLtB a.data b.data)

/-- JavaScript `a <= b` on strings (total order, so `¬ (b < a)`). -/
def strLe (a b : String) : Bool := !(strLtB b.data a.data)

/-- Strip every non-digit: `String(s).replace(/\D+/g, '')`. -/
def digitsOf (s : String) : String := ⟨s.data.filter Char.isDigit⟩

/-! ## Employee store (`src/store/employees.store.js`) -/

/-- A stored employee record. -/
structure Employee where
  id : String
  firstName : String
  lastName : String
  employmentDate : String
  birthDate : String
  phone : String
  email : String
  department : String
  position : String
deriving DecidableEq

/-- The argument of `upsert`: an employee payload whose `id` may be
absent (a fresh one is generated) and whose `email` may be absent
(JavaScript `undefined`/`null`, coerced by `String(e.email || '')`). -/
structure EmployeeInput where
  id : Option String := none
  firstName : String := ""
  lastName : String := ""
  employmentDate : String := ""
  birthDate : String := ""
  phone : String := ""
  email : Option String := none
  department : String := ""
  position : String := ""
deriving DecidableEq

/-- `String(e.email || '').trim().toLowerCase()` — the store's email
normalization (`undefined`, `null` and `''` all coerce to `''`). -/
def normEmail (v : Option String) : String := lowerStr (trimStr (v.getD ""))

/-- The record `{...e, id, email}` committed by `upsert`. -/
def EmployeeInput.toRecord (e : EmployeeInput) (id email : String) : Employee :=
  { id := id, firstName := e.firstName, lastName := e.lastName,
    employmentDate := e.employmentDate, birthDate := e.birthDate,
    phone := e.phone, email := email, department := e.department,
    position := e.position }

/-- The error thrown by `upsert` on a duplicate email:
`new Error('UNIQUE_EMAIL')` with `err.cause = {field: 'email'}`. -/
structure StoreErr where
  msg : String
  field : String
deriving DecidableEq

/-- `upsert` from `employees.store.js`. `gen` is the value `genId()`
would produce for this call. The JavaScript throws before `set` runs on
a duplicate email, so the model returns the unchanged collection
alongside the error; on success it returns the committed collection and
the id. `(x.email || '')` is `x.email` (stored emails are strings). -/
def upsert (gen : String) (es : List Employee) (e : EmployeeInput) :
    List Employee × Except StoreErr String :=
  let id := e.id.getD gen
  let email := normEmail e.email
  if es.any (fun x => lowerStr x.email == email && x.id != id) then
    (es, Except.error ⟨"UNIQUE_EMAIL", "email"⟩)
  else
    let r := e.toRecord id email
    let next :=
      if es.any (fun x => x.id == id) then
        es.set (es.findIdx (fun x => x.id == id)) r
      else es ++ [r]
    (next, Except.ok id)

example :
    upsert "g1" [] { email := some " A@B.com ", firstName := "Jane" } =
      ([{ id := "g1", firstName := "Jane", lastName := "",
          employmentDate := "", birthDate := "", phone := "",
          email := "a@b.com", department := "", position := "" }],
       Except.ok "g1") := rfl

/-! ## Validation engine (`src/utils/validation.js`) -/

/-- The candidate record handed to `validateEmployee`. `none` stands for
a JavaScript `undefined` or `null` field. -/
structure EmployeeDTO where
  firstName : Option String := none
  lastName : Option String := none
  employmentDate : Option String := none
  birthDate : Option String := none
  phone : Option String := none
  email : Option String := none
  department : Option String := none
  position : Option String := none
deriving DecidableEq

/-- The structured error codes produced by the validation engine. -/
inductive VError where
  | required (labelKey : String)
  | nameLength (labelKey : String) (min max : Nat)
  | emailInvalid (labelKey : String)
  | phoneInvalid (labelKey : String)
  | enumInvalid (labelKey : String) (allowed : List String)
  | dateInvalid (labelKey : String)
  | dateFuture (labelKey : String)
  | employmentAfterBirth (empKey birthKey : String)
  | ageMin (labelKey : String) (minYears : Nat)
deriving DecidableEq

/-- `DEPARTMENTS` from `validation.js`. -/
def DEPARTMENTS : List String := ["Analytics", "Tech"]

/-- `POSITIONS` from `validation.js`. -/
def POSITIONS : List String := ["Junior", "Medior", "Senior"]

/-- The test inside `req`: `v === undefined || v === null ||
String(v).trim() === ''`. -/
def isMissing : Option String → Bool
  | none => true
  | some s => trimStr s == ""

/-- Regex class `\p{L}` (Unicode letter), on the ASCII fragment. -/
def pL (c : Char) : Bool := c.isAlpha

/-- Regex class `\p{M}` (Unicode mark): no ASCII character is a mark. -/
def pM (_c : Char) : Bool := false

/-- A character of the regex class `[\p{L}\p{M}\s.'-]` (the apostrophe
is code point 39). -/
def nameTailChar (c : Char) : Bool :=
  pL c || pM c || c.isWhitespace || c == '.' || c.toNat == 39 || c == '-'

/-- `isName`: `/^[\p{L}][\p{L}\p{M}\s.'-]{1,48}$/u.test(v || '')` — a
letter followed by 1 to 48 characters of the bracket class. -/
def isName (v : Option String) : Bool :=
  match (v.getD "").data with
  | [] => false
  | c :: rest =>
      pL c && decide (1 ≤ rest.length) && decide (rest.length ≤ 48) &&
        rest.all nameTailChar

/-- A character of the regex class `[^\s@]`. -/
def emailChar (c : Char) : Bool := !c.isWhitespace && c != '@'

/-- The part after the `@` matches `[^\s@]+\.[^\s@]{2,}`: some dot has
at least one class character before it and at least two after it. -/
def emailTail (r : List Char) : Bool :=
  (List.range r.length).any fun i =>
    r.getD i ' ' == '.' && decide (1 ≤ i) && decide (i + 3 ≤ r.length)

/-- Split a character list at every occurrence of `sep`
(`String.prototype.split` with a one-character separator). -/
def splitChar (sep : Char) : List Char → List (List Char)
  | [] => [[]]
  | c :: t =>
      let r := splitChar sep t
      if c == sep then [] :: r
      else
        match r with
        | [] => [[c]]
        | h :: t2 => (c :: h) :: t2

/-- `isValidEmail`: `if (!v) return false;` then
`/^[^\s@]+@[^\s@]+\.[^\s@]{2,}$/.test(String(v))`. The pattern forces
exactly one `@` (no class admits one), so it matches exactly when the
string splits at its sole `@` into a nonempty run of `[^\s@]` and a
tail of `[^\s@]` containing a dot with ≥ 1 character before and ≥ 2
after it. -/
def isValidEmail (v : Option String) : Bool :=
  let s := v.getD ""
  if s == "" then false
  else
    match splitChar '@' s.data with
    | [l, r] =>
        !l.isEmpty && l.all emailChar && r.all emailChar && emailTail r
    | _ => false

/-- `isValidPhone`: `!v → false`; strip non-digits, require 10–16
digits, and require the original to match `/^[+()\-.\s\d]+$/`. -/
def isValidPhone (v : Option String) : Bool :=
  let s := v.getD ""
  if s == "" then false
  else
    let digits := digitsOf s
    decide (10 ≤ digits.length) && decide (digits.length ≤ 16) &&
      s.data.all fun c =>
        c == '+' || c == '(' || c == ')' || c == '-' || c == '.' ||
          c.isWhitespace || c.isDigit

/-! ### Dates

`parseISO` builds `new Date(Date.UTC(y, m - 1, d))` and compares
`toISOString().slice(0, 10)` with the input, so it goes through the
ECMAScript `MakeDay` calendar normalization. `MakeDay` is modelled by
the standard proleptic-Gregorian conversions between a civil date and a
day count from the Unix epoch (floor division throughout, as in the
ECMAScript specification). -/

/-- Day count from 1970-01-01 of the civil date `(y, m, d)`,
for `m ∈ [1, 12]` (proleptic Gregorian). -/
def daysFromCivil (y m d : Int) : Int :=
  let y := if m ≤ 2 then y - 1 else y
  let era := Int.ediv y 400
  let yoe := y - era * 400
  let mp := Int.emod (m + 9) 12
  let doy := Int.ediv (153 * mp + 2) 5 + d - 1
  let doe := yoe * 365 + Int.ediv yoe 4 - Int.ediv yoe 100 + doy
  era * 146097 + doe - 719468

/-- Civil date `(y, m, d)` of a day count from 1970-01-01
(proleptic Gregorian). -/
def civilFromDays (z : Int) : Int × Int × Int :=
  let z := z + 719468
  let era := Int.ediv z 146097
  let doe := z - era * 146097
  let yoe := Int.ediv
    (doe - Int.ediv doe 1460 + Int.ediv doe 36524 - Int.ediv doe 146096) 365
  let y := yoe + era * 400
  let doy := doe - (365 * yoe + Int.ediv yoe 4 - Int.ediv yoe 100)
  let mp := Int.ediv (5 * doy + 2) 153
  let d := doy - Int.ediv (153 * mp + 2) 5 + 1
  let m := if mp < 10 then mp + 3 else mp - 9
  (if m ≤ 2 then y + 1 else y, m, d)

/-- A JavaScript `Date` at UTC midnight: its day count from the epoch
(`getTime()` is `epochDay * 86400000`) and its civil components
(`getUTCFullYear`, `getUTCMonth + 1`, `getUTCDate`). -/
structure JSDate where
  epochDay : Int
  y : Int
  m : Int
  d : Int
deriving DecidableEq

/-- `getTime()` in milliseconds. -/
def JSDate.ms (a : JSDate) : Int := a.epochDay * 86400000

/-- `new Date(Date.UTC(y, m - 1, d))`: ECMAScript maps years 0–99 to
1900–1999, carries the zero-based month index into the year with floor
division, and counts day offsets from the first of the month. -/
def jsUtcDate (y m d : Int) : JSDate :=
  let y := if 0 ≤ y ∧ y ≤ 99 then y + 1900 else y
  let ym := y * 12 + (m - 1)
  let y2 := Int.ediv ym 12
  let m2 := Int.emod ym 12 + 1
  let z := daysFromCivil y2 m2 1 + (d - 1)
  let c := civilFromDays z
  ⟨z, c.1, c.2.1, c.2.2⟩

/-- `/^\d{4}-\d{2}-\d{2}$/` on the character list of the input. -/
def isoShape (cs : List Char) : Bool :=
  match cs with
  | [a, b, c, d, h1, e, f, h2, g, h] =>
      a.isDigit && b.isDigit && c.isDigit && d.isDigit && h1 == '-' &&
        e.isDigit && f.isDigit && h2 == '-' && g.isDigit && h.isDigit
  | _ => false

/-- Numeric value of a digit character list (most significant first). -/
def digitsToNat (cs : List Char) : Nat :=
  cs.foldl (fun n c => 10 * n + (c.toNat - 48)) 0

/-- `parseISO`: reject unless the input is shaped `\d{4}-\d{2}-\d{2}`;
split into numbers; build the `Date` through UTC normalization; accept
only if `toISOString().slice(0, 10)` re-formats to the same string.
For the reachable range (year ≤ 10010) that re-formatting equals the
input exactly when the normalized civil components equal the parsed
numbers, which is how the round trip is stated here. -/
def parseISO (s : String) : Option JSDate :=
  let cs := s.data
  if isoShape cs then
    let y : Int := Int.ofNat (digitsToNat (cs.take 4))
    let m : Int := Int.ofNat (digitsToNat ((cs.drop 5).take 2))
    let d : Int := Int.ofNat (digitsToNat ((cs.drop 8).take 2))
    let jd := jsUtcDate y m d
    if jd.y == y && jd.m == m && jd.d == d then some jd else none
  else none

/-- `parseISO(v)` where `v` may be `undefined`/`null` (then `String(v)`
is `"undefined"`/`"null"`, which fails the shape test). -/
def parseOpt : Option String → Option JSDate
  | none => none
  | some s => parseISO s

/-- `yearsBetween(a, b)`: whole-year difference, decremented when the
month/day of `b` fall before the month/day of `a`. -/
def yearsBetween (a b : JSDate) : Int :=
  let y := b.y - a.y
  let m := b.m - a.m
  let d := b.d - a.d
  if m < 0 ∨ (m = 0 ∧ d < 0) then y - 1 else y

example : parseISO "2020-02-29" =
    some ⟨daysFromCivil 2020 2 29, 2020, 2, 29⟩ := by decide
example : parseISO "2020-02-30" = none := by decide
example : parseISO "1990-13-01" = none := by decide
example : parseISO "0050-01-01" = none := by decide
example : yearsBetween (jsUtcDate 2010 1 1) (jsUtcDate 2024 1 1) = 14 := by
  decide
example : yearsBetween (jsUtcDate 2010 1 1) (jsUtcDate 2025 1 1) = 15 := by
  decide

/-- The required-field phase of `validateEmployee`: one `req` push per
missing field, in source order. -/
def requiredErrs (dto : EmployeeDTO) : List VError :=
  (if isMissing dto.firstName then [.required "emp.firstName"] else []) ++
  (if isMissing dto.lastName then [.required "emp.lastName"] else []) ++
  (if isMissing dto.employmentDate then [.required "emp.employmentDate"]
   else []) ++
  (if isMissing dto.birthDate then [.required "emp.birthDate"] else []) ++
  (if isMissing dto.phone then [.required "emp.phone"] else []) ++
  (if isMissing dto.email then [.required "emp.email"] else []) ++
  (if isMissing dto.department then [.required "emp.department"] else []) ++
  (if isMissing dto.position then [.required "emp.position"] else [])

/-- `DEPARTMENTS.includes(dto.department)` (`includes` of `undefined`
is false). -/
def deptOk (v : Option String) : Bool :=
  v == some "Analytics" || v == some "Tech"

/-- `POSITIONS.includes(dto.position)`. -/
def posOk (v : Option String) : Bool :=
  v == some "Junior" || v == some "Medior" || v == some "Senior"

/-- `validateEmployee` from `validation.js`. `todayMs` is the
`getTime()` of `new Date()` with `stripTime` applied (midnight in the
local time zone); the date checks compare it against the UTC-midnight
`getTime()` of each parsed date. The early `return errs` after the
required-field phase is the `if errs.length` short-circuit; afterwards
each check appends its error in source push order. -/
def validateEmployee (todayMs : Int) (dto : EmployeeDTO) : List VError :=
  let reqErrs := requiredErrs dto
  if reqErrs.isEmpty then
    let birth := parseOpt dto.birthDate
    let employed := parseOpt dto.employmentDate
    (if isName dto.firstName then []
     else [.nameLength "emp.firstName" 2 50]) ++
    (if isName dto.lastName then [] else [.nameLength "emp.lastName" 2 50]) ++
    (if isValidEmail dto.email then [] else [.emailInvalid "emp.email"]) ++
    (if isValidPhone dto.phone then [] else [.phoneInvalid "emp.phone"]) ++
    (if deptOk dto.department then []
     else [.enumInvalid "emp.department" DEPARTMENTS]) ++
    (if posOk dto.position then []
     else [.enumInvalid "emp.position" POSITIONS]) ++
    (if birth.isNone then [.dateInvalid "emp.birthDate"] else []) ++
    (if employed.isNone then [.dateInvalid "emp.employmentDate"] else []) ++
    (match birth with
     | some b => if todayMs < b.ms then [.dateFuture "emp.birthDate"] else []
     | none => []) ++
    (match employed with
     | some e =>
         if todayMs < e.ms then [.dateFuture "emp.employmentDate"] else []
     | none => []) ++
    (match birth, employed with
     | some b, some e =>
         if e.ms < b.ms then
           [.employmentAfterBirth "emp.employmentDate" "emp.birthDate"]
         else []
     | _, _ => []) ++
    (match birth, employed with
     | some b, some e =>
         if yearsBetween b e < 15 then [.ageMin "emp.employmentDate" 15]
         else []
     | _, _ => [])
  else reqErrs

/-- A fully valid DTO used by the concrete examples below. -/
def okDTO : EmployeeDTO :=
  { firstName := some "Jane", lastName := some "Doe",
    employmentDate := some "2020-03-02", birthDate := some "1990-05-10",
    phone := some "+90 555 123 45 67", email := some "jane.doe@corp.com",
    department := some "Tech", position := some "Senior" }

/-- `getTime()` of 2026-01-01 at UTC midnight, a "today" later than
every date used in the concrete examples. -/
def today2026 : Int := (jsUtcDate 2026 1 1).ms

/-- `okDTO` with two required fields blanked. -/
def missingDTO : EmployeeDTO :=
  { okDTO with firstName := none, phone := some "  " }

/-- `okDTO` with a 14-full-year gap between birth and employment. -/
def age14DTO : EmployeeDTO :=
  { okDTO with
    birthDate := some "2010-01-01"
    employmentDate := some "2024-01-01" }

example : validateEmployee today2026 okDTO = [] := by decide
example : validateEmployee today2026 missingDTO =
    [.required "emp.firstName", .required "emp.phone"] := by decide
example : validateEmployee today2026 age14DTO =
    [.ageMin "emp.employmentDate" 15] := by decide

/-! ## List/filter/pagination engine (`src/components/employee-list.js`
and `src/components/shared/pagination.js`) -/

/-- The structured filter set of `employee-list.js` (all fields default
to the empty string, which means "unconstrained"). -/
structure Filters where
  firstName : String := ""
  lastName : String := ""
  email : String := ""
  phone : String := ""
  department : String := ""
  position : String := ""
  empFrom : String := ""
  empTo : String := ""
  birthFrom : String := ""
  birthTo : String := ""
deriving DecidableEq

/-- `_norm`: lowercase (`String(s || '').toLowerCase()`). -/
def norm (s : String) : String := lowerStr s

/-- `_inRange(val, from, to)`:
`(!from || val >= from) && (!to || val <= to)`. -/
def inRange (val lo hi : String) : Bool :=
  (lo == "" || strGe val lo) && (hi == "" || strLe val hi)

/-- The free-text pass of `_filtered`: the query is empty or its
normalized form is a substring of one of the six normalized fields. -/
def matchesQuery (q : String) (e : Employee) : Bool :=
  let qn := norm q
  qn == "" ||
    [e.firstName, e.lastName, e.email, e.phone, e.department,
      e.position].any fun v => strIncludes (norm v) qn

/-- The structured-filter pass of `_filtered`: each
`if (F.x && !cond) return false;` guard becomes the conjunct
`!F.x || cond`, in source order. -/
def passFilters (F : Filters) (e : Employee) : Bool :=
  (F.firstName == "" ||
    strIncludes (norm e.firstName) (norm F.firstName)) &&
  (F.lastName == "" || strIncludes (norm e.lastName) (norm F.lastName)) &&
  (F.email == "" || strIncludes (norm e.email) (norm F.email)) &&
  (F.phone == "" || strIncludes (digitsOf e.phone) (digitsOf F.phone)) &&
  (F.department == "" || e.department == F.department) &&
  (F.position == "" || e.position == F.position) &&
  ((F.empFrom == "" && F.empTo == "") ||
    inRange e.employmentDate F.empFrom F.empTo) &&
  ((F.birthFrom == "" && F.birthTo == "") ||
    inRange e.birthDate F.birthFrom F.birthTo)

/-- `_filtered`: the free-text pass followed by the structured-filter
pass over the live collection. -/
def filteredList (all : List Employee) (q : String) (F : Filters) :
    List Employee :=
  ((all.filter (matchesQuery q)).filter (passFilters F))

/-- Ceiling division, the value of `Math.ceil(total / size)` for
naturals with `size > 0`. -/
def ceilDiv (total size : Nat) : Nat := (total + size - 1) / size

/-- `_pages` / `updated`: `Math.max(1, Math.ceil(total / size))` with
`size` already floored at 1 (`Math.max(1, Number(size) || 1)`). -/
def totalPages (total size : Nat) : Nat := max 1 (ceilDiv total (max 1 size))

/-- The page clamp of `_pages` and `updated`:
`Math.min(Math.max(1, page), totalPages)`. -/
def clampPage (page tp : Nat) : Nat := min (max 1 page) tp

/-- `_slice(items, size)`: `items.slice((page-1)*s, (page-1)*s + s)`
with `s = Math.max(1, Number(size) || 1)`, for the 1-based pages the
component produces. -/
def slicePage (page : Nat) (items : List Employee) (size : Nat) :
    List Employee :=
  let s := max 1 size
  (items.drop ((page - 1) * s)).take s

/-- View mode of the list component. -/
inductive ViewMode where
  | table
  | list
deriving DecidableEq

/-- The view state the list component owns. -/
structure ListState where
  q : String := ""
  page : Nat := 1
  view : ViewMode := .table
  pageSize : Nat := 10
  filters : Filters := {}
deriving DecidableEq

/-- `_effectivePageSize`: 4 in card (`list`) view, else `pageSize`. -/
def effectivePageSize (s : ListState) : Nat :=
  if s.view = .list then 4 else s.pageSize

/-- The `updated` lifecycle reaction: recompute total pages for the
effective size against the current filtered length and clamp the page
into `[1, totalPages]`. -/
def viewUpdated (all : List Employee) (s : ListState) : ListState :=
  let size := effectivePageSize s
  let tp := totalPages (filteredList all s.q s.filters).length size
  { s with page := clampPage s.page tp }

/-- `_setQ` followed by the `updated` reaction: set the query and reset
the page to 1. -/
def setQ (all : List Employee) (v : String) (s : ListState) : ListState :=
  viewUpdated all { s with q := v, page := 1 }

/-- A filter change (`_setText`/`_setDate`/`_setPick`/`_clearFilters`)
followed by the `updated` reaction: install the new filter set and
reset the page to 1. -/
def setFilters (all : List Employee) (F : Filters) (s : ListState) :
    ListState :=
  viewUpdated all { s with filters := F, page := 1 }

/-- A view-toggle click followed by the `updated` reaction: the click
handlers in `render` run `this.view = ...; this.page = 1;`. -/
def setView (all : List Employee) (v : ViewMode) (s : ListState) :
    ListState :=
  viewUpdated all { s with view := v, page := 1 }

/-- A change of the `pageSize` property followed by the `updated`
reaction (no handler resets the page for this property). -/
def setPageSize (all : List Employee) (n : Nat) (s : ListState) :
    ListState :=
  viewUpdated all { s with pageSize := n }

/-! ## Theorems -/

/-- Payload with a mixed-case email, inserted first in the C2 scenario. -/
def inputA : EmployeeInput := { email := some "A@B.com", firstName := "Jane" }

/-- The record the store commits for `inputA` under id `id1`. -/
def recA : Employee := inputA.toRecord "id1" "a@b.com"

/-- A different-id payload whose email collides case-insensitively. -/
def inputB : EmployeeInput := { email := some "a@b.com", firstName := "Mark" }

/-- A same-id payload carrying a changed-case variant of its own email. -/
def inputC : EmployeeInput :=
  { id := some "id1", email := some " A@b.COM ", firstName := "Jane" }

/-- C2: `upsert` stores the email trimmed and lowercased — every
successful call commits a record, under the returned id, whose email is
the trim-lowercase normalization of the supplied one — and compares
uniqueness on that normalized form: after `"A@B.com"` is stored under
`id1`, a fresh-id upsert of `"a@b.com"` is rejected as a `UNIQUE_EMAIL`
violation, while an upsert of `id1` itself with the changed-case
variant `" A@b.COM "` succeeds and returns `id1`. -/
theorem upsert_email_normalization (gen : String) (es : List Employee)
    (e : EmployeeInput) (st : List Employee) (i : String)
    (h : upsert gen es e = (st, Except.ok i)) :
    (∃ r ∈ st, r.id = i ∧ r.email = normEmail e.email) ∧
    upsert "id1" [] inputA = ([recA], Except.ok "id1") ∧
    (upsert "id2" [recA] inputB).2 =
      Except.error ⟨"UNIQUE_EMAIL", "email"⟩ ∧
    upsert "g3" [recA] inputC = ([recA], Except.ok "id1") := by
  refine ⟨?_, rfl, rfl, rfl⟩
  unfold upsert at h
  by_cases hdupe :
      es.any (fun x =>
        lowerStr x.email == normEmail e.email && x.id != e.id.getD gen)
  · simp only [hdupe, if_true] at h
    exact absurd (congrArg Prod.snd h) (by simp)
  · simp only [hdupe, if_false, Bool.false_eq_true] at h
    obtain ⟨hst, hid⟩ := Prod.mk.injEq .. ▸ h
    by_cases hex : es.any (fun x => x.id == e.id.getD gen)
    · subst hst
      refine ⟨e.toRecord (e.id.getD gen) (normEmail e.email), ?_, ?_, rfl⟩
      · simp only [hex, if_true]
        exact List.mem_set es _
          (List.findIdx_lt_length_of_exists (by simpa using hex)) _
      · simpa [EmployeeInput.toRecord] using hid
    · subst hst
      refine ⟨e.toRecord (e.id.getD gen) (normEmail e.email), ?_, ?_, rfl⟩
      · simp [hex]
      · simpa [EmployeeInput.toRecord] using hid

/-- Witness for `upsert_email_normalization` at a concrete input. -/
theorem upsert_email_normalization_witness :
    (∃ r ∈ [recA], r.id = "id1" ∧ r.email = normEmail inputA.email) :=
  (upsert_email_normalization "id1" [] inputA [recA] "id1" rfl).1

/-- C10: two consecutive upserts that both carry no email (or a blank
one) normalize both emails to `""`; the first stores an empty-email
record, and the second — under a fresh id — trips the uniqueness scan
(`'' === ''`) and throws `UNIQUE_EMAIL`, leaving the collection
unchanged. The store therefore cannot hold two email-less records. -/
theorem upsert_empty_email_conflict (gen1 gen2 : String)
    (e1 e2 : EmployeeInput) (st : List Employee) (id1 : String)
    (h1 : normEmail e1.email = "") (h2 : normEmail e2.email = "")
    (hrun : upsert gen1 [] e1 = (st, Except.ok id1))
    (hid : e2.id.getD gen2 ≠ id1) :
    upsert gen2 st e2 = (st, Except.error ⟨"UNIQUE_EMAIL", "email"⟩) := by
  unfold upsert at hrun
  simp only [List.any_nil, Bool.false_eq_true, if_false, List.nil_append,
    reduceIte] at hrun
  obtain ⟨hst, hid1⟩ := Prod.mk.injEq .. ▸ hrun
  replace hid1 : e1.id.getD gen1 = id1 := by simpa using hid1
  subst hst
  have hne : e1.id.getD gen1 ≠ e2.id.getD gen2 :=
    fun hEq => hid (hEq.symm.trans hid1)
  have hl : lowerStr "" = "" := rfl
  simp [upsert, EmployeeInput.toRecord, h1, h2, hl, bne_iff_ne, hne]

/-- Witness for `upsert_empty_email_conflict`: two email-less payloads
in a row, the second under a fresh generated id. -/
theorem upsert_empty_email_conflict_witness :
    upsert "g2" (upsert "g1" [] {} ).1 {} =
      ((upsert "g1" [] {} ).1, Except.error ⟨"UNIQUE_EMAIL", "email"⟩) :=
  upsert_empty_email_conflict "g1" "g2" {} {} _ "g1" rfl rfl rfl
    (by decide)

/-- C4: for a positive page size and a 1-based page, `_slice` is
`items[(page-1)*size : (page-1)*size + size]` and the total page count
is `ceil(length / size)` floored at 1; concretely, 33 items have 4
pages at size 10 and 2 pages at size 20, a requested page 999 clamps to
the last page, and a requested page 0 clamps to page 1. -/
theorem pagination_spec (items : List Employee) (page size : Nat)
    (_hp : 1 ≤ page) (hs : 0 < size) :
    slicePage page items size =
      (items.drop ((page - 1) * size)).take size ∧
    totalPages items.length size =
      max 1 ((items.length + size - 1) / size) ∧
    totalPages 33 10 = 4 ∧ totalPages 33 20 = 2 ∧
    clampPage 999 (totalPages 33 10) = 4 ∧
    clampPage 0 (totalPages 33 10) = 1 := by
  have hmax : max 1 size = size := Nat.max_eq_right hs
  refine ⟨?_, ?_, by decide, by decide, by decide, by decide⟩
  · simp [slicePage, hmax]
  · simp [totalPages, ceilDiv, hmax]

/-- Witness for `pagination_spec` at a concrete input. -/
theorem pagination_spec_witness :
    slicePage 2 [recA] 10 = ([recA].drop ((2 - 1) * 10)).take 10 ∧
    totalPages ([recA] : List Employee).length 10 =
      max 1 ((([recA] : List Employee).length + 10 - 1) / 10) ∧
    totalPages 33 10 = 4 ∧ totalPages 33 20 = 2 ∧
    clampPage 999 (totalPages 33 10) = 4 ∧
    clampPage 0 (totalPages 33 10) = 1 :=
  pagination_spec [recA] 2 10 (by decide) (by decide)

/-- The leading four digits of an ISO-shaped string, as an integer. -/
def isoY (s : String) : Int := Int.ofNat (digitsToNat (s.data.take 4))

/-- The month digits of an ISO-shaped string, as an integer. -/
def isoM (s : String) : Int := Int.ofNat (digitsToNat ((s.data.drop 5).take 2))

/-- The day digits of an ISO-shaped string, as an integer. -/
def isoD (s : String) : Int := Int.ofNat (digitsToNat ((s.data.drop 8).take 2))

/-- `okDTO` with the invalid-month birth date `1990-13-01`. -/
def badMonthDTO : EmployeeDTO := { okDTO with birthDate := some "1990-13-01" }

/-- `okDTO` with the impossible employment date `2020-02-30`. -/
def badDayDTO : EmployeeDTO :=
  { okDTO with employmentDate := some "2020-02-30" }

/-- C7: a date string is accepted (`parseISO` returns a date) only if
it has the strict `YYYY-MM-DD` shape and survives calendar
normalization unchanged — the accepted date's civil components are
exactly the parsed digits; in particular `"1990-13-01"` (month 13) and
`"2020-02-30"` (day 30 of February) are rejected, and `validateEmployee`
reports a date-invalid error for them instead of a coerced date. -/
theorem parseISO_strict (s : String) (jd : JSDate)
    (h : parseISO s = some jd) :
    (isoShape s.data = true ∧ jsUtcDate (isoY s) (isoM s) (isoD s) = jd ∧
      jd.y = isoY s ∧ jd.m = isoM s ∧ jd.d = isoD s) ∧
    parseISO "1990-13-01" = none ∧ parseISO "2020-02-30" = none ∧
    validateEmployee today2026 badMonthDTO =
      [.dateInvalid "emp.birthDate"] ∧
    validateEmployee today2026 badDayDTO =
      [.dateInvalid "emp.employmentDate"] := by
  refine ⟨?_, by decide, by decide, by decide, by decide⟩
  have hrw : parseISO s =
      if isoShape s.data then
        if (jsUtcDate (isoY s) (isoM s) (isoD s)).y == isoY s &&
            (jsUtcDate (isoY s) (isoM s) (isoD s)).m == isoM s &&
            (jsUtcDate (isoY s) (isoM s) (isoD s)).d == isoD s then
          some (jsUtcDate (isoY s) (isoM s) (isoD s))
        else none
      else none := rfl
  rw [hrw] at h
  by_cases h1 : isoShape s.data = true
  · rw [if_pos h1] at h
    by_cases h2 :
        ((jsUtcDate (isoY s) (isoM s) (isoD s)).y == isoY s &&
          (jsUtcDate (isoY s) (isoM s) (isoD s)).m == isoM s &&
          (jsUtcDate (isoY s) (isoM s) (isoD s)).d == isoD s) = true
    · rw [if_pos h2] at h
      have hjd := Option.some.inj h
      obtain ⟨⟨hy, hm⟩, hd⟩ : (_ = true ∧ _ = true) ∧ _ = true := by
        simpa only [Bool.and_eq_true] using h2
      exact ⟨h1, hjd, by rw [← hjd]; exact eq_of_beq hy,
        by rw [← hjd]; exact eq_of_beq hm,
        by rw [← hjd]; exact eq_of_beq hd⟩
    · rw [if_neg h2] at h
      exact absurd h (by simp)
  · rw [if_neg h1] at h
    exact absurd h (by simp)

/-- Witness for `parseISO_strict` at a concrete accepted date. -/
theorem parseISO_strict_witness :
    (isoShape ("2020-02-29" : String).data = true ∧
      jsUtcDate (isoY "2020-02-29") (isoM "2020-02-29")
          (isoD "2020-02-29") =
        ⟨daysFromCivil 2020 2 29, 2020, 2, 29⟩ ∧
      (⟨daysFromCivil 2020 2 29, 2020, 2, 29⟩ : JSDate).y =
        isoY "2020-02-29" ∧
      (⟨daysFromCivil 2020 2 29, 2020, 2, 29⟩ : JSDate).m =
        isoM "2020-02-29" ∧
      (⟨daysFromCivil 2020 2 29, 2020, 2, 29⟩ : JSDate).d =
        isoD "2020-02-29") ∧
    parseISO "1990-13-01" = none ∧ parseISO "2020-02-30" = none ∧
    validateEmployee today2026 badMonthDTO =
      [.dateInvalid "emp.birthDate"] ∧
    validateEmployee today2026 badDayDTO =
      [.dateInvalid "emp.employmentDate"] :=
  parseISO_strict "2020-02-29" ⟨daysFromCivil 2020 2 29, 2020, 2, 29⟩
    (by decide)

/-- The eight required fields with their label keys, in source order. -/
def requiredFields (dto : EmployeeDTO) : List (Option String × String) :=
  [(dto.firstName, "emp.firstName"), (dto.lastName, "emp.lastName"),
   (dto.employmentDate, "emp.employmentDate"),
   (dto.birthDate, "emp.birthDate"), (dto.phone, "emp.phone"),
   (dto.email, "emp.email"), (dto.department, "emp.department"),
   (dto.position, "emp.position")]

/-- The date conditions of `validateEmployee` all passing: both dates
parse, neither exceeds today, employment is not before birth, and the
whole-year difference is at least 15. -/
def dateRulesOk (todayMs : Int) (dto : EmployeeDTO) : Bool :=
  match parseOpt dto.birthDate, parseOpt dto.employmentDate with
  | some b, some e =>
      !decide (todayMs < b.ms) && !decide (todayMs < e.ms) &&
        !decide (e.ms < b.ms) && !decide (yearsBetween b e < 15)
  | _, _ => false

/-- A DTO satisfying every field rule of the validation engine. -/
def rulesOk (todayMs : Int) (dto : EmployeeDTO) : Prop :=
  isMissing dto.firstName = false ∧ isMissing dto.lastName = false ∧
  isMissing dto.employmentDate = false ∧ isMissing dto.birthDate = false ∧
  isMissing dto.phone = false ∧ isMissing dto.email = false ∧
  isMissing dto.department = false ∧ isMissing dto.position = false ∧
  isName dto.firstName = true ∧ isName dto.lastName = true ∧
  isValidEmail dto.email = true ∧ isValidPhone dto.phone = true ∧
  deptOk dto.department = true ∧ posOk dto.position = true ∧
  dateRulesOk todayMs dto = true

instance (todayMs : Int) (dto : EmployeeDTO) :
    Decidable (rulesOk todayMs dto) := by
  unfold rulesOk; infer_instance

/-- C6: if at least one of the eight required fields is missing
(absent, or blank after trimming), `validateEmployee` returns exactly
one required-field error per missing field — in field order, with no
error of any other type, the format and range checks being skipped —
and on a DTO satisfying every field rule it returns the empty list. -/
theorem validate_required_and_valid (todayMs : Int) (dto : EmployeeDTO) :
    (requiredErrs dto ≠ [] →
      validateEmployee todayMs dto =
        (requiredFields dto).filterMap fun p =>
          if isMissing p.1 then some (VError.required p.2) else none) ∧
    (rulesOk todayMs dto → validateEmployee todayMs dto = []) := by
  have filterMap_req : ∀ l : List (Option String × String),
      (l.filterMap fun p =>
        if isMissing p.1 then some (VError.required p.2) else none) =
      l.foldr (fun p acc =>
        (if isMissing p.1 then [VError.required p.2] else []) ++ acc) [] := by
    intro l
    induction l with
    | nil => rfl
    | cons a t ih =>
        cases h : isMissing a.1 <;>
          simp [List.filterMap_cons, h, ih]
  constructor
  · intro hne
    have hemp : (requiredErrs dto).isEmpty = false := by
      cases hh : (requiredErrs dto).isEmpty
      · rfl
      · exact absurd (List.isEmpty_iff.mp hh) hne
    have hbody : validateEmployee todayMs dto = requiredErrs dto := by
      simp only [validateEmployee, hemp, Bool.false_eq_true, if_false]
    rw [hbody, filterMap_req]
    simp [requiredErrs, requiredFields]
  · rintro ⟨f1, f2, f3, f4, f5, f6, f7, f8, n1, n2, em, ph, dp, ps, hdate⟩
    have hreq : requiredErrs dto = [] := by
      simp [requiredErrs, f1, f2, f3, f4, f5, f6, f7, f8]
    unfold dateRulesOk at hdate
    split at hdate
    case h_2 => exact absurd hdate (by simp)
    case h_1 b e hb he =>
      obtain ⟨⟨⟨d1, d2⟩, d3⟩, d4⟩ :
          ((_ = true ∧ _ = true) ∧ _ = true) ∧ _ = true := by
        simpa only [Bool.and_eq_true] using hdate
      have p1 : ¬ todayMs < b.ms := by simpa using d1
      have p2 : ¬ todayMs < e.ms := by simpa using d2
      have p3 : ¬ e.ms < b.ms := by simpa using d3
      have p4 : ¬ yearsBetween b e < 15 := by simpa using d4
      simp only [validateEmployee, hreq]
      simp [hb, he, n1, n2, em, ph, dp, ps, p1, p2, p3, p4]

/-- Witness for `validate_required_and_valid`: the missing-fields DTO
and the fully valid DTO. -/
theorem validate_required_and_valid_witness :
    validateEmployee today2026 missingDTO =
      ((requiredFields missingDTO).filterMap fun p =>
        if isMissing p.1 then some (VError.required p.2) else none) ∧
    validateEmployee today2026 okDTO = [] :=
  ⟨(validate_required_and_valid today2026 missingDTO).1 (by decide),
   (validate_required_and_valid today2026 okDTO).2 (by decide)⟩

/-- `okDTO` with a 15-full-year gap between birth and employment. -/
def age15DTO : EmployeeDTO :=
  { okDTO with
    birthDate := some "2010-01-01"
    employmentDate := some "2025-01-01" }

/-- C8: on a DTO whose required fields are present and whose dates both
parse, are not in the future, and satisfy employment ≥ birth,
`validateEmployee` emits the age-minimum violation exactly when
`yearsBetween` — the whole-year difference honoring month and day — is
below 15; concretely, birth `2010-01-01` with employment `2024-01-01`
(14 full years) yields the `age_min` error and employment `2025-01-01`
(15 full years) yields no violation at all. -/
theorem validate_age_minimum (todayMs : Int) (dto : EmployeeDTO)
    (b e : JSDate)
    (hreq : requiredErrs dto = [])
    (hb : parseOpt dto.birthDate = some b)
    (he : parseOpt dto.employmentDate = some e)
    (hbf : ¬ todayMs < b.ms) (hef : ¬ todayMs < e.ms)
    (hord : ¬ e.ms < b.ms) :
    (VError.ageMin "emp.employmentDate" 15 ∈ validateEmployee todayMs dto ↔
      yearsBetween b e < 15) ∧
    VError.ageMin "emp.employmentDate" 15 ∈
      validateEmployee today2026 age14DTO ∧
    validateEmployee today2026 age15DTO = [] := by
  refine ⟨?_, by decide, by decide⟩
  simp only [validateEmployee, hreq, List.isEmpty_nil, reduceIte, hb, he,
    Option.isNone_some, if_neg hbf, if_neg hef, if_neg hord]
  simp only [List.mem_append, List.append_nil, List.nil_append]
  split_ifs <;> simp_all

/-- Witness for `validate_age_minimum` at the 14-year boundary input. -/
theorem validate_age_minimum_witness :
    (VError.ageMin "emp.employmentDate" 15 ∈
        validateEmployee today2026 age14DTO ↔
      yearsBetween (jsUtcDate 2010 1 1) (jsUtcDate 2024 1 1) < 15) ∧
    VError.ageMin "emp.employmentDate" 15 ∈
      validateEmployee today2026 age14DTO ∧
    validateEmployee today2026 age15DTO = [] :=
  validate_age_minimum today2026 age14DTO (jsUtcDate 2010 1 1)
    (jsUtcDate 2024 1 1) (by decide) (by decide) (by decide) (by decide)
    (by decide) (by decide)

/-- Fifty letters `a` — 50 characters drawn from the claimed name
alphabet. -/
def fiftyAs : String := ⟨List.replicate 50 'a'⟩

/-- `okDTO` with the 50-letter first name. -/
def fiftyDTO : EmployeeDTO := { okDTO with firstName := some fiftyAs }

/-- Counterexample to C9 as stated: a first name of 50 characters, all
drawn from the claimed alphabet (50 letters `a`), is rejected by
`isName` — the regex `[\p{L}\p{M}\s.'-]{1,48}` caps the total length at
49 — and `validateEmployee` reports the `name_length` error (which
still carries max 50) for it. -/
theorem name_fifty_chars_rejected :
    fiftyAs.data.length = 50 ∧
    fiftyAs.data.all (fun c =>
      pL c || pM c || c.isWhitespace || c == '.' || c.toNat == 39 ||
        c == '-') = true ∧
    isName (some fiftyAs) = false ∧
    validateEmployee today2026 fiftyDTO =
      [.nameLength "emp.firstName" 2 50] := by decide

/-- The name rule the code actually implements: a Unicode letter
followed by 1 to 48 characters drawn from letters, marks, whitespace,
apostrophe, hyphen and period — total length 2 to 49. -/
def nameSpec (v : Option String) : Bool :=
  let s := v.getD ""
  decide (2 ≤ s.data.length) && decide (s.data.length ≤ 49) &&
    (match s.data with
     | [] => false
     | c :: rest => pL c && rest.all nameTailChar)

/-- C9 (amended): a string is accepted as a first or last name exactly
when it is a Unicode letter followed by 1–48 characters drawn from
letters, marks, whitespace, apostrophe, hyphen and period (total length
2–49, not 2–50, and the first character must be a letter); otherwise —
with the required fields present — `validateEmployee` emits the
name-length error carrying min 2 and max 50. -/
theorem isName_characterization (v : Option String) (todayMs : Int)
    (dto : EmployeeDTO) (hreq : requiredErrs dto = []) :
    (isName v = true ↔ nameSpec v = true) ∧
    (VError.nameLength "emp.firstName" 2 50 ∈ validateEmployee todayMs dto ↔
      isName dto.firstName = false) := by
  constructor
  · cases v with
    | none => simp [isName, nameSpec]
    | some s =>
        cases hd : s.data with
        | nil => simp [isName, nameSpec, hd]
        | cons c rest =>
            simp only [isName, nameSpec, hd, Option.getD_some,
              List.length_cons, Bool.and_eq_true, decide_eq_true_eq]
            constructor
            · rintro ⟨⟨⟨hpl, h1⟩, h2⟩, hall⟩
              exact ⟨⟨by omega, by omega⟩, hpl, hall⟩
            · rintro ⟨⟨h1, h2⟩, hpl, hall⟩
              exact ⟨⟨⟨hpl, by omega⟩, by omega⟩, hall⟩
  · have memIf : ∀ (c : Prop) [Decidable c] (x y : VError),
        (x ∈ if c then [y] else ([] : List VError)) ↔ c ∧ x = y := by
      intro c _ x y
      split <;> simp_all
    have memIfN : ∀ (c : Prop) [Decidable c] (x y : VError),
        (x ∈ if c then ([] : List VError) else [y]) ↔ ¬c ∧ x = y := by
      intro c _ x y
      split <;> simp_all
    simp only [validateEmployee, hreq, List.isEmpty_nil, reduceIte]
    cases hpb : parseOpt dto.birthDate <;>
      cases hpe : parseOpt dto.employmentDate <;>
        simp [hpb, hpe, List.mem_append, memIf, memIfN, Bool.not_eq_true]

/-- Witness for `isName_characterization` at the 50-letter input. -/
theorem isName_characterization_witness :
    ((isName (some fiftyAs) = true ↔ nameSpec (some fiftyAs) = true) ∧
      (VError.nameLength "emp.firstName" 2 50 ∈
          validateEmployee today2026 fiftyDTO ↔
        isName fiftyDTO.firstName = false)) :=
  isName_characterization (some fiftyAs) today2026 fiftyDTO (by decide)

/-- C1: on a collection whose stored emails are already normalized (the
store's reachable-state invariant — `upsert` only ever commits
`normEmail`-normalized emails and the persisted collection starts
empty), `upsert` signals the `UNIQUE_EMAIL` violation carrying field
`email` exactly when some other record (different id) has a normalized
email equal to the candidate's trimmed-lowercased email, and in that
case the stored collection is exactly what it was before the call. -/
theorem upsert_unique_email (gen : String) (es : List Employee)
    (e : EmployeeInput)
    (hinv : ∀ r ∈ es, trimStr r.email = r.email ∧
      lowerStr r.email = r.email) :
    ((upsert gen es e).2 = Except.error ⟨"UNIQUE_EMAIL", "email"⟩ ↔
      ∃ r ∈ es, r.id ≠ e.id.getD gen ∧
        normEmail (some r.email) = normEmail e.email) ∧
    ((∃ r ∈ es, r.id ≠ e.id.getD gen ∧
        normEmail (some r.email) = normEmail e.email) →
      (upsert gen es e).1 = es) := by
  have key : (es.any fun x =>
      lowerStr x.email == normEmail e.email &&
        x.id != e.id.getD gen) = true ↔
      ∃ r ∈ es, r.id ≠ e.id.getD gen ∧
        normEmail (some r.email) = normEmail e.email := by
    rw [List.any_eq_true]
    constructor
    · rintro ⟨r, hr, hcond⟩
      obtain ⟨h1, h2⟩ : _ = true ∧ _ = true := by
        simpa only [Bool.and_eq_true] using hcond
      refine ⟨r, hr, by simpa using h2, ?_⟩
      calc normEmail (some r.email) = lowerStr (trimStr r.email) := rfl
        _ = lowerStr r.email := by rw [(hinv r hr).1]
        _ = normEmail e.email := eq_of_beq h1
    · rintro ⟨r, hr, hne, heq⟩
      refine ⟨r, hr, ?_⟩
      have hl : lowerStr r.email = normEmail e.email := by
        calc lowerStr r.email = lowerStr (trimStr r.email) := by
              rw [(hinv r hr).1]
          _ = normEmail (some r.email) := rfl
          _ = normEmail e.email := heq
      simp [hl, hne]
  by_cases hc : (es.any fun x =>
      lowerStr x.email == normEmail e.email &&
        x.id != e.id.getD gen) = true
  · have hres : upsert gen es e =
        (es, Except.error ⟨"UNIQUE_EMAIL", "email"⟩) := by
      simp only [upsert, hc, reduceIte]
    rw [hres]
    exact ⟨⟨fun _ => key.mp hc, fun _ => rfl⟩, fun _ => rfl⟩
  · have hc' : (es.any fun x =>
        lowerStr x.email == normEmail e.email &&
          x.id != e.id.getD gen) = false := by
      simpa using hc
    have hres : (upsert gen es e).2 = Except.ok (e.id.getD gen) := by
      simp only [upsert, hc', Bool.false_eq_true, reduceIte]
    refine ⟨⟨fun h => absurd (hres ▸ h) (by simp),
      fun hex => absurd (key.mpr hex) hc⟩,
      fun hex => absurd (key.mpr hex) hc⟩

/-- Witness for `upsert_unique_email`: the singleton collection holding
`recA` and the colliding payload `inputB`. -/
theorem upsert_unique_email_witness :
    ((upsert "id2" [recA] inputB).2 =
        Except.error ⟨"UNIQUE_EMAIL", "email"⟩ ↔
      ∃ r ∈ [recA], r.id ≠ inputB.id.getD "id2" ∧
        normEmail (some r.email) = normEmail inputB.email) ∧
    ((∃ r ∈ [recA], r.id ≠ inputB.id.getD "id2" ∧
        normEmail (some r.email) = normEmail inputB.email) →
      (upsert "id2" [recA] inputB).1 = [recA]) :=
  upsert_unique_email "id2" [recA] inputB (by decide)

/-- The filtered view described by the specification: the record passes
the free-text query (empty query, or case-insensitive substring of any
of the six fields) and every non-empty structured filter as an
independent AND condition — case-insensitive substrings for names and
email, digit-only substrings for phone, exact matches for department
and position, and each date bound separately unconstrained when
absent. -/
def specMatches (q : String) (F : Filters) (e : Employee) : Bool :=
  (q == "" ||
    [e.firstName, e.lastName, e.email, e.phone, e.department,
      e.position].any fun v => strIncludes (norm v) (norm q)) &&
  (F.firstName == "" || strIncludes (norm e.firstName) (norm F.firstName)) &&
  (F.lastName == "" || strIncludes (norm e.lastName) (norm F.lastName)) &&
  (F.email == "" || strIncludes (norm e.email) (norm F.email)) &&
  (F.phone == "" || strIncludes (digitsOf e.phone) (digitsOf F.phone)) &&
  (F.department == "" || e.department == F.department) &&
  (F.position == "" || e.position == F.position) &&
  (F.empFrom == "" || strGe e.employmentDate F.empFrom) &&
  (F.empTo == "" || strLe e.employmentDate F.empTo) &&
  (F.birthFrom == "" || strGe e.birthDate F.birthFrom) &&
  (F.birthTo == "" || strLe e.birthDate F.birthTo)

/-- The guarded date group of `_filtered` equals the specification's
two independent bound conditions. -/
theorem range_group (v lo hi : String) :
    ((lo == "" && hi == "") || inRange v lo hi) =
      ((lo == "" || strGe v lo) && (hi == "" || strLe v hi)) := by
  unfold inRange
  cases hlo : lo == "" <;> cases hhi : hi == "" <;> simp

/-- Reassociating the two Boolean conjunction chains. -/
theorem bool_regroup (m a b c d e f g h i j : Bool) :
    (a && b && c && d && e && f && (g && h) && (i && j) && m) =
      (m && a && b && c && d && e && f && g && h && i && j) := by
  revert m a b c d e f g h i j
  decide

/-- Normalizing (lowercasing) a string preserves emptiness. -/
theorem norm_beq_empty (q : String) : (norm q == "") = (q == "") := by
  cases q with
  | mk data =>
      cases data with
      | nil => rfl
      | cons c t =>
          simp only [norm, lowerStr, List.map_cons]
          rfl

/-- Pointwise: the two filter passes of `_filtered` agree with the
specification predicate. -/
theorem pass_eq (q : String) (F : Filters) (e : Employee) :
    (passFilters F e && matchesQuery q e) = specMatches q F e := by
  unfold passFilters matchesQuery specMatches
  rw [range_group, range_group, bool_regroup]
  simp only [norm_beq_empty]

/-- C3: the filtered view is exactly the records that match the
free-text query (empty, or a case-insensitive substring of any of
firstName, lastName, email, phone, department, position) and pass
every non-empty structured filter conjoined as independent AND
conditions — substring for names/email, digit-only substring for
phone, exact match for department/position, and each date-range bound
separately, an absent bound being unconstrained. -/
theorem filtered_view_exact (all : List Employee) (q : String)
    (F : Filters) :
    filteredList all q F = all.filter (specMatches q F) := by
  unfold filteredList
  rw [List.filter_filter]
  exact List.filter_congr (fun e _ => pass_eq q F e)

/-- Thirty distinct valid-looking records, enough for three table pages
of ten. -/
def demoAll : List Employee :=
  (List.range 30).map fun i =>
    { id := toString i, firstName := "Ada", lastName := "Byron",
      employmentDate := "2020-01-01", birthDate := "1990-01-01",
      phone := "5551234567", email := toString i ++ "@x.com",
      department := "Tech", position := "Junior" }

/-- Table view, page size 10, on page 3, with no search or filters. -/
def demoState : ListState :=
  { q := "", page := 3, view := .table, pageSize := 10, filters := {} }

/-- Counterexample to C5 as stated: from page 3 of the unfiltered
30-record table view, toggling to the card view lands on page 1 — the
view-toggle click handlers run `this.page = 1` — whereas clamping the
page into `[1, totalPages]` for the card view's effective page size 4
(8 total pages) would have kept page 3. -/
theorem view_toggle_resets_page :
    (setView demoAll ViewMode.list demoState).page = 1 ∧
    clampPage demoState.page
      (totalPages (filteredList demoAll demoState.q
          demoState.filters).length 4) = 3 := by decide

/-- A page-1 clamp always lands on page 1. -/
theorem clampPage_one (t sz : Nat) : clampPage 1 (totalPages t sz) = 1 := by
  simp only [clampPage, totalPages, Nat.max_self]
  exact Nat.min_eq_left (Nat.le_max_left 1 _)

/-- C5 (amended): changing the search text or any structured filter
resets the page to 1, and so does toggling the view mode (the toggle
handlers set the page to 1 before the `updated` clamp runs); only a
change of the `pageSize` property keeps the current page, clamping it
into `[1, totalPages]` recomputed for the new effective page size
against the current filtered length. -/
theorem page_reset_and_clamp (all : List Employee) (s : ListState)
    (v : String) (F : Filters) (vm : ViewMode) (n : Nat) (_hn : 0 < n) :
    (setQ all v s).page = 1 ∧ (setFilters all F s).page = 1 ∧
    (setView all vm s).page = 1 ∧
    (setPageSize all n s).page =
      clampPage s.page
        (totalPages (filteredList all s.q s.filters).length
          (effectivePageSize { s with pageSize := n })) := by
  refine ⟨?_, ?_, ?_, rfl⟩ <;>
    simp [setQ, setFilters, setView, viewUpdated, clampPage_one]

/-- Witness for `page_reset_and_clamp` at the 30-record collection. -/
theorem page_reset_and_clamp_witness :
    (setQ demoAll "ada" demoState).page = 1 ∧
    (setFilters demoAll {} demoState).page = 1 ∧
    (setView demoAll ViewMode.table demoState).page = 1 ∧
    (setPageSize demoAll 20 demoState).page =
      clampPage demoState.page
        (totalPages (filteredList demoAll demoState.q
            demoState.filters).length
          (effectivePageSize { demoState with pageSize := 20 })) :=
  page_reset_and_clamp demoAll demoState "ada" {} ViewMode.table 20
    (by decide)

end HR
